import Mathlib

/-!
Verification of the Game of Life engine in `src/lib.rs` (rust-life).

The Rust `Game` struct holds a sparse set of live coordinates (`space`),
a dirty set of coordinates to re-examine on the next tick (`cache`),
the grid dimensions (`size`) and a generation counter.  Both sets are
`HashSet<(i32, i32)>`; we embed them as `Finset (ℤ × ℤ)`, which matches
the structural equality and finiteness of the Rust sets.  The random
number generator used by `init` is modelled, as the spec suggests, as an
injected list of coordinate draws consumed by the rejection-sampling loop.
-/

namespace RustLife

/-- Coordinates are pairs of signed integers, as in `type Coord = (i32, i32)`. -/
abbrev Coord := ℤ × ℤ

/-- The sparse cell set, as in `type Space = HashSet<Coord>`. -/
abbrev Space := Finset Coord

/-- Embedding of the Rust `Game` struct (fields `space`, `cache`, `size`,
`generation`). -/
structure Game where
  space : Space
  cache : Space
  size : ℕ × ℕ
  generation : ℕ
deriving DecidableEq

deriving instance DecidableEq for Except

/-- The bounds test performed inside `insert_cache`:
`c.0 >= 0 && c.1 >= 0 && self.size.0 > c.0 as usize && self.size.1 > c.1 as usize`. -/
def inBounds (size : ℕ × ℕ) (c : Coord) : Prop :=
  0 ≤ c.1 ∧ 0 ≤ c.2 ∧ c.1 < (size.1 : ℤ) ∧ c.2 < (size.2 : ℤ)

instance (size : ℕ × ℕ) (c : Coord) : Decidable (inBounds size c) := by
  unfold inBounds; infer_instance

/-- Embedding of `Game::neighbors`: the 8 surrounding coordinates, in source
order. -/
def neighbors (c : Coord) : List Coord :=
  [(c.1 + 1, c.2), (c.1 - 1, c.2), (c.1, c.2 + 1), (c.1, c.2 - 1),
   (c.1 + 1, c.2 + 1), (c.1 + 1, c.2 - 1), (c.1 - 1, c.2 + 1), (c.1 - 1, c.2 - 1)]

/-- Embedding of `Game::new`: an empty space, an empty cache, the given size and
generation 0.  The Rust function returns `Game` directly, with no error path. -/
def Game.new (row col : ℕ) : Game :=
  { space := ∅, cache := ∅, size := (row, col), generation := 0 }

/-- Embedding of `Game::alive`: the number of live cells. -/
def Game.alive (g : Game) : ℕ := g.space.card

/-- Embedding of `Game::cell_state`: membership of the coordinate in `space`,
with no bounds check. -/
def Game.cell_state (g : Game) (c : Coord) : Bool := decide (c ∈ g.space)

/-- Embedding of `Game::set_cell_state`: inserts the coordinate into `space`,
with no bounds check and no error path. -/
def Game.set_cell_state (g : Game) (c : Coord) : Game :=
  { g with space := insert c g.space }

/-- Embedding of `Game::insert_cache`: inserts each given coordinate into
`cache`, keeping only coordinates that pass the bounds test. -/
def Game.insert_cache (g : Game) (cs : List Coord) : Game :=
  { g with cache := g.cache ∪ cs.toFinset.filter (inBounds g.size) }

/-- Embedding of `Game::next_cell_state`.  The Rust function matches on
`live neighbor count + curr_cell` with arms `3`, `4` and a catch-all, which we
render as the equivalent if-chain; it returns the next liveness and, when the
state changed, the list of neighbors to re-activate. -/
def Game.next_cell_state (g : Game) (c : Coord) : Bool × Option (List Coord) :=
  let ns := neighbors c
  let curr : ℕ := if g.cell_state c then 1 else 0
  let total : ℕ := (ns.filter (fun x => g.cell_state x)).length + curr
  if total = 3 then
    (if curr = 0 then (true, some ns) else (true, none))
  else if total = 4 then
    (decide (curr = 1), none)
  else
    (if curr = 1 then (false, some ns) else (false, none))

/-- Embedding of `Game::next`.  The loop body reads only the old `space`, so
its effect is order-independent over the iterated `cache`: the next space is
the set of cached coordinates whose next state is live; those same coordinates
are re-inserted into the fresh cache (through `insert_cache`, hence bounds
filtered), together with the neighbors of every cached coordinate whose state
changed. -/
def Game.next (g : Game) : Game :=
  { space := g.cache.filter (fun c => (g.next_cell_state c).1 = true)
    cache := ((g.cache.filter (fun c => (g.next_cell_state c).1 = true)) ∪
        (g.cache.filter (fun c => (g.next_cell_state c).2.isSome = true)).biUnion
          (fun c => (neighbors c).toFinset)).filter (inBounds g.size)
    size := g.size
    generation := g.generation + 1 }

/-- Iterated `Game::next`. -/
def Game.stepN (g : Game) : ℕ → Game
  | 0 => g
  | k + 1 => (g.next).stepN k

/-- Round half to even on a rational: the integer nearest to `x`, ties going
to the even neighbor.  This is the tie-breaking rule of IEEE 754
round-to-nearest. -/
def rhe (x : ℚ) : ℤ :=
  if x - ⌊x⌋ < 1/2 then ⌊x⌋
  else if 1/2 < x - ⌊x⌋ then ⌊x⌋ + 1
  else if 2 ∣ ⌊x⌋ then ⌊x⌋ else ⌊x⌋ + 1

/-- The IEEE 754 binary32 round-to-nearest-even value of a positive rational
below the overflow threshold: the unit in the last place is `2 ^ (e - 23)`
with `e` the binade exponent, clamped at the subnormal range `e = -126`, and
the scaled significand is rounded half to even. -/
def toF32pos (q : ℚ) : ℚ :=
  ((rhe (q / 2 ^ (max (Int.log 2 q) (-126) - 23)) : ℤ) : ℚ) *
    2 ^ (max (Int.log 2 q) (-126) - 23)

/-- The value of the nearest `f32` to a rational (round to nearest, ties to
even), extended to zero and negatives by sign symmetry.  This models the `f32`
arithmetic of the source in the range it uses (no overflow, no NaN). -/
def toF32 (q : ℚ) : ℚ :=
  if q = 0 then 0 else if q < 0 then -toF32pos (-q) else toF32pos q

/-- The target population computed in `Game::init`:
`(self.size.0 * self.size.1) as f32 * density`, truncated by `as usize`.  The
integer-to-`f32` cast rounds the area to the nearest `f32` (ties to even), the
`f32` multiplication rounds the exact product the same way, and `as usize`
truncates toward zero, saturating at 0 for negative values — which, for the
nonnegative products produced by checked densities, is `Int.floor` followed by
`Int.toNat`.  The density argument is carried as the exact rational value of
the `f32` the source receives. -/
def initTarget (size : ℕ × ℕ) (density : ℚ) : ℕ :=
  (⌊toF32 (toF32 ((size.1 * size.2 : ℕ) : ℚ) * density)⌋).toNat

/-- Embedding of the rejection-sampling loop of `Game::init`: while the live
count is below the target, consume one random draw; a draw that hits a dead
cell is set live and its neighbors are inserted into the cache.  The infinite
random stream is modelled by the injected list of draws. -/
def initLoop (target : ℕ) : Game → List Coord → Game
  | g, [] => g
  | g, c :: ds =>
    if g.alive < target then
      initLoop target
        (if g.cell_state c then g else (g.set_cell_state c).insert_cache (neighbors c)) ds
    else g

/-- Embedding of `Game::init`: densities outside `[0, 1]` are rejected with the
source error string before any state is touched; otherwise the sampling loop
runs to the target.  The random draws are injected as a list. -/
def Game.init (g : Game) (density : ℚ) (draws : List Coord) : Except String Game :=
  if 0 > density ∨ 1 < density then
    Except.error "density must be within range [0, 1]"
  else
    Except.ok (initLoop (initTarget g.size density) g draws)

/-- States reachable through the public lifecycle of the engine: construction,
a successful randomized initialization (with in-bounds draws, as produced by
`gen_range`), and generation steps. -/
inductive Reachable : Game → Prop
  | new (row col : ℕ) : Reachable (Game.new row col)
  | init (g gNew : Game) (d : ℚ) (ds : List Coord) : Reachable g →
      (∀ c ∈ ds, inBounds g.size c) → g.init d ds = Except.ok gNew → Reachable gNew
  | next (g : Game) : Reachable g → Reachable g.next

/-- All in-bounds coordinates of a `w × h` grid as a duplicate-free list, used
as a deterministic covering draw sequence for `init` and to sweep the full grid
in the brute-force reference algorithm. -/
def enumCoords (w h : ℕ) : List Coord :=
  ((List.range w) ×ˢ (List.range h)).map (fun p => ((p.1 : ℤ), (p.2 : ℤ)))

/-- All in-bounds coordinates of a grid, as a finite set. -/
def allCoords (size : ℕ × ℕ) : Finset Coord :=
  (enumCoords size.1 size.2).toFinset

/-- Modelled from the spec: the canonical Life rule
`alive2 = (n == 3) || (alive && n == 2)` applied to one cell of a given space,
with `n` the count of live cells among the 8 neighbors.  This is the reference
side of the differential test in the spec; it is deliberately written from the
words of the spec, not from `next_cell_state`. -/
def lifeRule (space : Space) (c : Coord) : Bool :=
  let n := ((neighbors c).filter (fun x => decide (x ∈ space))).length
  decide (n = 3) || (decide (c ∈ space) && decide (n = 2))

/-- Modelled from the spec: brute-force full-grid re-evaluation of the Life
rule — the set of cells of the whole grid that are live after one synchronous
application of `lifeRule` to the current space. -/
def bruteForceStep (g : Game) : Finset Coord :=
  (allCoords g.size).filter (fun c => lifeRule g.space c = true)

/-- The live-neighbor count computed inside `next_cell_state`: the number of
the 8 neighbors that are members of `space`. -/
def liveNeighborCount (g : Game) (c : Coord) : ℕ :=
  ((neighbors c).filter (fun x => g.cell_state x)).length

/-- The live-neighbor count with out-of-bounds neighbors counting as dead, as
phrased by the spec. -/
def liveInBoundsCount (g : Game) (c : Coord) : ℕ :=
  ((neighbors c).filter (fun x => decide (inBounds g.size x) && g.cell_state x)).length

/-- Draw sequence producing a 2 x 2 block (the still life used by the source
test `should_live`) in the top-left corner. -/
def blockCells : List Coord := [(0, 0), (0, 1), (1, 0), (1, 1)]

/-- A 10 x 10 game holding a 2 x 2 block, as produced by a successful
`init` with density 4/100 whose draws hit exactly the block cells. -/
def gBlock : Game := initLoop 4 (Game.new 10 10) blockCells

/-- Draw sequence on a 5 x 5 grid: an isolated cell at the corner plus a
three-cell cluster around (2, 2). -/
def bugDraws : List Coord := [(0, 0), (2, 1), (1, 2), (2, 2)]

/-- The 5 x 5 game after a successful `init` with density 4/25 whose draws are
`bugDraws`.  The isolated corner cell (0, 0) is live but, because `init` caches
only the neighbors of a placed cell and not the cell itself, (0, 0) is absent
from the cache. -/
def g0bug : Game := initLoop 4 (Game.new 5 5) bugDraws

/-- The state one `next` after `g0bug`: the corner cell has died silently
(unprocessed, so its neighbors were not re-activated) and the cluster
survives with cache `{(2, 1), (1, 2), (2, 2)}`, which no longer contains the
dead cell (1, 1) even though (1, 1) now has exactly three live neighbors. -/
def g1bug : Game := g0bug.next

/-! Unfolding lemmas for the state operations. -/

theorem set_cell_state_space (g : Game) (c : Coord) :
    (g.set_cell_state c).space = insert c g.space := rfl

theorem set_cell_state_cache (g : Game) (c : Coord) :
    (g.set_cell_state c).cache = g.cache := rfl

theorem set_cell_state_size (g : Game) (c : Coord) :
    (g.set_cell_state c).size = g.size := rfl

theorem insert_cache_space (g : Game) (cs : List Coord) :
    (g.insert_cache cs).space = g.space := rfl

theorem insert_cache_size (g : Game) (cs : List Coord) :
    (g.insert_cache cs).size = g.size := rfl

theorem insert_cache_cache (g : Game) (cs : List Coord) :
    (g.insert_cache cs).cache = g.cache ∪ cs.toFinset.filter (inBounds g.size) := rfl

theorem next_space_def (g : Game) :
    (g.next).space = g.cache.filter (fun c => (g.next_cell_state c).1 = true) := rfl

theorem next_cache_def (g : Game) :
    (g.next).cache = ((g.cache.filter (fun c => (g.next_cell_state c).1 = true)) ∪
        (g.cache.filter (fun c => (g.next_cell_state c).2.isSome = true)).biUnion
          (fun c => (neighbors c).toFinset)).filter (inBounds g.size) := rfl

theorem next_size (g : Game) : (g.next).size = g.size := rfl

/-! Evaluation lemmas for the binary32 rounding model. -/

theorem rhe_intCast (m : ℤ) : rhe ((m : ℚ)) = m := by
  unfold rhe
  rw [Int.floor_intCast, sub_self, if_pos (by norm_num)]

theorem int_log_eq_of (q : ℚ) (m : ℤ) (hq : 0 < q) (h1 : (2:ℚ) ^ m ≤ q)
    (h2 : q < (2:ℚ) ^ (m + 1)) : Int.log 2 q = m := by
  have hcast : ((2:ℕ) : ℚ) = (2:ℚ) := by norm_num
  have hlo : m ≤ Int.log 2 q :=
    (Int.zpow_le_iff_le_log (by norm_num) hq).mp (by rw [hcast]; exact h1)
  have hhi : Int.log 2 q < m + 1 :=
    (Int.lt_zpow_iff_log_lt (by norm_num) hq).mp (by rw [hcast]; exact h2)
  omega

theorem toF32pos_eval (q : ℚ) (e : ℤ) (hlog : Int.log 2 q = e) (hge : -126 ≤ e) :
    toF32pos q = ((rhe (q * 2 ^ (23 - e)) : ℤ) : ℚ) * 2 ^ (e - 23) := by
  unfold toF32pos
  rw [hlog, max_eq_left hge, div_eq_mul_inv, ← zpow_neg, neg_sub]

/-- A positive rational whose scaled significand is already an integer is a
binary32 value, so rounding returns it unchanged. -/
theorem toF32_eq_self (q : ℚ) (e : ℤ) (m : ℤ) (hq : 0 < q) (hlog : Int.log 2 q = e)
    (hge : -126 ≤ e) (hm : q * 2 ^ (23 - e) = (m : ℚ)) : toF32 q = q := by
  unfold toF32
  rw [if_neg (ne_of_gt hq), if_neg (not_lt.mpr (le_of_lt hq))]
  rw [toF32pos_eval q e hlog hge, hm, rhe_intCast, ← hm, mul_assoc,
    ← zpow_add₀ (by norm_num : (2:ℚ) ≠ 0),
    show (23 - e) + (e - 23) = 0 from by ring, zpow_zero, mul_one]

theorem toF32_four : toF32 (4 : ℚ) = 4 :=
  toF32_eq_self 4 2 8388608 (by norm_num)
    (int_log_eq_of 4 2 (by norm_num) (by norm_num) (by norm_num))
    (by norm_num) (by norm_num)

theorem toF32_twentyfive : toF32 (25 : ℚ) = 25 :=
  toF32_eq_self 25 4 13107200 (by norm_num)
    (int_log_eq_of 25 4 (by norm_num) (by norm_num) (by norm_num))
    (by norm_num) (by norm_num)

theorem toF32_fifty : toF32 (50 : ℚ) = 50 :=
  toF32_eq_self 50 5 13107200 (by norm_num)
    (int_log_eq_of 50 5 (by norm_num) (by norm_num) (by norm_num))
    (by norm_num) (by norm_num)

theorem toF32_hundred : toF32 (100 : ℚ) = 100 :=
  toF32_eq_self 100 6 13107200 (by norm_num)
    (int_log_eq_of 100 6 (by norm_num) (by norm_num) (by norm_num))
    (by norm_num) (by norm_num)

theorem toF32_pow24 : toF32 (16777216 : ℚ) = 16777216 :=
  toF32_eq_self 16777216 24 8388608 (by norm_num)
    (int_log_eq_of 16777216 24 (by norm_num) (by norm_num) (by norm_num))
    (by norm_num) (by norm_num)

/-- The tie at the heart of the C9 counterexample: 16777217/2 lies exactly
halfway between the integers 8388608 and 8388609, and ties-to-even picks the
even 8388608. -/
theorem rhe_pow24_tie : rhe ((16777217 : ℚ) / 2) = 8388608 := by
  have hfl : ⌊(16777217 : ℚ) / 2⌋ = 8388608 := by norm_num
  unfold rhe
  rw [hfl]
  rw [if_neg (by norm_num), if_neg (by norm_num), if_pos (by norm_num)]

/-- The integer 2^24 + 1 = 16777217 is not a binary32 value: it rounds down to
2^24 by the ties-to-even rule, exactly as the source's `as f32` cast does. -/
theorem toF32_pow24_succ : toF32 (16777217 : ℚ) = 16777216 := by
  unfold toF32
  rw [if_neg (by norm_num), if_neg (by norm_num)]
  rw [toF32pos_eval 16777217 24
    (int_log_eq_of 16777217 24 (by norm_num) (by norm_num) (by norm_num))
    (by norm_num)]
  rw [show (16777217 : ℚ) * 2 ^ (23 - (24:ℤ)) = (16777217 : ℚ) / 2 from by norm_num]
  rw [rhe_pow24_tie]
  norm_num

theorem initTarget_block : initTarget (10, 10) (4/100) = 4 := by
  show (⌊toF32 (toF32 ((10 * 10 : ℕ) : ℚ) * (4/100))⌋).toNat = 4
  rw [show ((10 * 10 : ℕ) : ℚ) = (100 : ℚ) from by norm_num, toF32_hundred,
    show (100 : ℚ) * (4/100) = 4 from by norm_num, toF32_four]
  norm_num
  rfl

theorem initTarget_bug : initTarget (5, 5) (4/25) = 4 := by
  show (⌊toF32 (toF32 ((5 * 5 : ℕ) : ℚ) * (4/25))⌋).toNat = 4
  rw [show ((5 * 5 : ℕ) : ℚ) = (25 : ℚ) from by norm_num, toF32_twentyfive,
    show (25 : ℚ) * (4/25) = 4 from by norm_num, toF32_four]
  norm_num
  rfl

theorem initTarget_half : initTarget (10, 10) (1/2) = 50 := by
  show (⌊toF32 (toF32 ((10 * 10 : ℕ) : ℚ) * (1/2))⌋).toNat = 50
  rw [show ((10 * 10 : ℕ) : ℚ) = (100 : ℚ) from by norm_num, toF32_hundred,
    show (100 : ℚ) * (1/2) = 50 from by norm_num, toF32_fifty]
  norm_num
  rfl

theorem initTarget_big : initTarget (16777217, 1) 1 = 16777216 := by
  show (⌊toF32 (toF32 ((16777217 * 1 : ℕ) : ℚ) * 1)⌋).toNat = 16777216
  rw [show ((16777217 * 1 : ℕ) : ℚ) = (16777217 : ℚ) from by norm_num,
    toF32_pow24_succ, mul_one, toF32_pow24]
  norm_num
  rfl

/-- The first component of `next_cell_state` is the canonical Life rule applied
to the membership-based neighbor count. -/
theorem next_cell_state_fst (g : Game) (c : Coord) :
    (g.next_cell_state c).1 =
      (decide (liveNeighborCount g c = 3) ||
        (g.cell_state c && decide (liveNeighborCount g c = 2))) := by
  unfold Game.next_cell_state liveNeighborCount
  cases hb : g.cell_state c <;> simp only [hb] <;> split_ifs with h1 h2 <;>
    simp_all

/-- A cached coordinate whose state changed has its neighbors reported by
`next_cell_state`; conversely a reported neighbor list means the state changed. -/
theorem next_cell_state_snd_of_unchanged (g : Game) (c : Coord)
    (h : (g.next_cell_state c).1 = g.cell_state c) :
    (g.next_cell_state c).2 = none := by
  unfold Game.next_cell_state at h ⊢
  cases hb : g.cell_state c <;> simp only [hb] at h ⊢ <;> split_ifs at h ⊢ <;>
    simp_all

/-- When every live cell is in bounds, the membership-based neighbor count of
`next_cell_state` coincides with the count that treats out-of-bounds neighbors
as dead. -/
theorem liveInBoundsCount_eq (g : Game) (c : Coord)
    (h : ∀ p ∈ g.space, inBounds g.size p) :
    liveInBoundsCount g c = liveNeighborCount g c := by
  unfold liveInBoundsCount liveNeighborCount
  congr 1
  apply List.filter_congr
  intro x _
  cases hs : g.cell_state x
  · simp
  · have hmem : x ∈ g.space := by simpa [Game.cell_state] using hs
    simp [h x hmem]

/-- C2: for every coordinate evaluated during a step, with `n` its count of
live cells among the 8 neighbors (out-of-bounds neighbors counting as dead,
which holds whenever the live set is within bounds) and `alive` its current
liveness, the computed next liveness equals `(n == 3) || (alive && n == 2)`. -/
theorem next_cell_state_is_life_rule (g : Game) (c : Coord)
    (h : ∀ p ∈ g.space, inBounds g.size p) :
    (g.next_cell_state c).1 =
      (decide (liveInBoundsCount g c = 3) ||
        (g.cell_state c && decide (liveInBoundsCount g c = 2))) := by
  rw [liveInBoundsCount_eq g c h]
  exact next_cell_state_fst g c

/-- Witness for C2 at a live corner of the 2 x 2 block. -/
theorem next_cell_state_is_life_rule_witness :
    (∀ p ∈ gBlock.space, inBounds gBlock.size p) ∧
      (gBlock.next_cell_state (0, 1)).1 =
        (decide (liveInBoundsCount gBlock (0, 1) = 3) ||
          (gBlock.cell_state (0, 1) && decide (liveInBoundsCount gBlock (0, 1) = 2))) :=
  ⟨by decide, next_cell_state_is_life_rule gBlock (0, 1) (by decide)⟩

/-- C4 counterexample: constructing a grid of width 0 does not fail — the
source `Game::new` returns a `Game` directly and has no error path, so there is
no `InvalidDimension` error anywhere in the program — it yields an ordinary
all-dead grid with alive count 0 and generation 0. -/
theorem new_zero_width_succeeds :
    (Game.new 0 5).alive = 0 ∧ (Game.new 0 5).generation = 0 ∧
      (Game.new 0 5).cell_state (0, 0) = false := by decide

/-- C4 amended: construction never fails; for every width and height,
0 included, `new` returns an all-dead grid with alive count 0 and
generation 0. -/
theorem new_always_all_dead (row col : ℕ) :
    (Game.new row col).alive = 0 ∧ (Game.new row col).generation = 0 ∧
      ∀ c : Coord, (Game.new row col).cell_state c = false := by
  refine ⟨rfl, rfl, fun c => ?_⟩
  simp [Game.new, Game.cell_state]

/-- C5 counterexample: the mutation operation does not reject an out-of-bounds
coordinate — the source `set_cell_state` has no bounds check and no error
path — it actually mutates the state, setting the out-of-bounds cell live. -/
theorem set_cell_state_oob_mutates :
    ¬ inBounds (Game.new 10 10).size (-5, 3) ∧
      ((Game.new 10 10).set_cell_state (-5, 3)).cell_state (-5, 3) = true := by
  decide

/-- C5 amended: `set_cell_state` performs no bounds check and never fails: for
every coordinate, in or out of bounds, it inserts the coordinate into the live
set and leaves every other cell unchanged. -/
theorem set_cell_state_no_bounds_check (g : Game) (c : Coord) :
    ((g.set_cell_state c).cell_state c = true) ∧
      ∀ c2 : Coord, c2 ≠ c →
        (g.set_cell_state c).cell_state c2 = g.cell_state c2 := by
  constructor
  · simp [Game.set_cell_state, Game.cell_state]
  · intro c2 hne
    simp [Game.set_cell_state, Game.cell_state, Finset.mem_insert, hne]

/-- Witness for C5 amended at an out-of-bounds coordinate. -/
theorem set_cell_state_no_bounds_check_witness :
    ((Game.new 10 10).set_cell_state (-5, 3)).cell_state (-5, 3) = true ∧
      ((Game.new 10 10).set_cell_state (-5, 3)).cell_state (2, 2) =
        (Game.new 10 10).cell_state (2, 2) :=
  ⟨(set_cell_state_no_bounds_check (Game.new 10 10) (-5, 3)).1,
   (set_cell_state_no_bounds_check (Game.new 10 10) (-5, 3)).2 (2, 2) (by decide)⟩

/-- C6: any density outside the unit interval is rejected with the source
error string; the check precedes every state mutation in `init`, so the grid
and its alive count are untouched. -/
theorem init_rejects_out_of_range_density (g : Game) (d : ℚ) (ds : List Coord)
    (h : 0 > d ∨ 1 < d) :
    g.init d ds = Except.error "density must be within range [0, 1]" := by
  unfold Game.init
  rw [if_pos h]

/-- Witness for C6 at the densities named by the claim, -0.1 and 1.1. -/
theorem init_rejects_out_of_range_density_witness :
    (Game.new 10 10).init (-(1/10)) [] =
        Except.error "density must be within range [0, 1]" ∧
      (Game.new 10 10).init (11/10) [] =
        Except.error "density must be within range [0, 1]" :=
  ⟨init_rejects_out_of_range_density (Game.new 10 10) (-(1/10)) []
      (Or.inl (by norm_num)),
   init_rejects_out_of_range_density (Game.new 10 10) (11/10) []
      (Or.inr (by norm_num))⟩

/-- With no live cells at all, every evaluated cell has zero live neighbors
and stays dead, so `next` produces an empty space. -/
theorem next_space_empty (g : Game) (h : g.space = ∅) : (g.next).space = ∅ := by
  rw [next_space_def]
  refine Finset.filter_false_of_mem ?_
  intro c _
  rw [next_cell_state_fst]
  simp [Game.cell_state, liveNeighborCount, h]

/-- C7: extinction is absorbing — in every reachable state with alive count 0,
the alive count remains 0 after any number of further steps. -/
theorem extinction_absorbing (g : Game) (hr : Reachable g) (h : g.alive = 0) :
    ∀ k : ℕ, (g.stepN k).alive = 0 := by
  intro k
  induction k generalizing g with
  | zero => exact h
  | succ k ih =>
      have hsp : g.space = ∅ := Finset.card_eq_zero.mp h
      have halive : g.next.alive = 0 := by
        unfold Game.alive
        rw [next_space_empty g hsp, Finset.card_empty]
      exact ih g.next (Reachable.next g hr) halive

/-- Witness for C7: a freshly constructed (hence extinct) grid stays extinct
for five steps. -/
theorem extinction_absorbing_witness : ((Game.new 3 3).stepN 5).alive = 0 :=
  extinction_absorbing (Game.new 3 3) (Reachable.new 3 3) rfl 5

/-- The sampling loop only ever inserts the drawn coordinate into the space and
bounds-filtered coordinates into the cache, so both sets stay within bounds and
the size is unchanged. -/
theorem initLoop_bounds (target : ℕ) (ds : List Coord) : ∀ g : Game,
    (∀ c ∈ ds, inBounds g.size c) →
    (∀ c ∈ g.space, inBounds g.size c) → (∀ c ∈ g.cache, inBounds g.size c) →
    (initLoop target g ds).size = g.size ∧
      (∀ c ∈ (initLoop target g ds).space, inBounds g.size c) ∧
      (∀ c ∈ (initLoop target g ds).cache, inBounds g.size c) := by
  induction ds with
  | nil =>
      intro g _ hsp hca
      exact ⟨rfl, hsp, hca⟩
  | cons c ds ih =>
      intro g hds hsp hca
      by_cases hlt : g.alive < target
      · rw [initLoop, if_pos hlt]
        by_cases hcell : g.cell_state c
        · rw [if_pos hcell]
          exact ih g (fun x hx => hds x (List.mem_cons_of_mem c hx)) hsp hca
        · rw [if_neg hcell]
          have hsize : ((g.set_cell_state c).insert_cache (neighbors c)).size = g.size := rfl
          have h2 := ih ((g.set_cell_state c).insert_cache (neighbors c))
            (fun x hx => hds x (List.mem_cons_of_mem c hx))
            (fun x hx => by
              rw [insert_cache_space, set_cell_state_space] at hx
              rcases Finset.mem_insert.mp hx with hxc | hxs
              · subst hxc; exact hds x (List.mem_cons_self x ds)
              · exact hsp x hxs)
            (fun x hx => by
              rw [insert_cache_cache, set_cell_state_cache] at hx
              rcases Finset.mem_union.mp hx with hxc | hxf
              · exact hca x hxc
              · exact (Finset.mem_filter.mp hxf).2)
          rw [hsize] at h2
          exact h2
      · rw [initLoop, if_neg hlt]
        exact ⟨rfl, hsp, hca⟩

/-- A successful `init` is exactly the sampling loop run on the target
population. -/
theorem init_ok_eq (g gNew : Game) (d : ℚ) (ds : List Coord)
    (h : g.init d ds = Except.ok gNew) :
    gNew = initLoop (initTarget g.size d) g ds := by
  unfold Game.init at h
  by_cases hd : 0 > d ∨ 1 < d
  · rw [if_pos hd] at h
    exact absurd h (by simp)
  · rw [if_neg hd] at h
    exact (Except.ok.inj h).symm

/-- Invariant of the engine lifecycle: in every reachable state, every live
cell and every cached cell is within the grid bounds. -/
theorem reachable_bounds (g : Game) (hr : Reachable g) :
    (∀ c ∈ g.space, inBounds g.size c) ∧ (∀ c ∈ g.cache, inBounds g.size c) := by
  induction hr with
  | new row col =>
      constructor <;> intro c hc <;> simp [Game.new] at hc
  | init g gNew d ds hg hds hok ih =>
      have heq := init_ok_eq g gNew d ds hok
      have h := initLoop_bounds (initTarget g.size d) ds g hds ih.1 ih.2
      rw [← heq] at h
      rw [h.1]
      exact ⟨h.2.1, h.2.2⟩
  | next g hg ih =>
      obtain ⟨hs, hc⟩ := ih
      constructor
      · intro c hcmem
        rw [next_space_def] at hcmem
        rw [next_size]
        exact hc c (Finset.mem_filter.mp hcmem).1
      · intro c hcmem
        rw [next_cache_def] at hcmem
        rw [next_size]
        exact (Finset.mem_filter.mp hcmem).2

/-- C8: out-of-bounds coordinates are dead in every reachable state — the
live set only ever receives in-bounds coordinates through the lifecycle, so
the bounds-check-free membership test of `cell_state` returns false. -/
theorem oob_cell_state_false (g : Game) (hr : Reachable g) (c : Coord)
    (h : ¬ inBounds g.size c) : g.cell_state c = false := by
  unfold Game.cell_state
  simp only [decide_eq_false_iff_not]
  intro hmem
  exact h ((reachable_bounds g hr).1 c hmem)

/-- Witness for C8 at a coordinate with a negative row index. -/
theorem oob_cell_state_false_witness :
    (Game.new 2 2).cell_state (-1, 0) = false :=
  oob_cell_state_false (Game.new 2 2) (Reachable.new 2 2) (-1, 0) (by decide)

/-- C10: after a call to `next` on a reachable state, every live coordinate is
also in the cache: a coordinate enters the next space exactly when it is a
cached coordinate whose next state is live, and the very same processing step
re-inserts it (in bounds, by the reachability invariant) into the next
cache. -/
theorem next_space_subset_cache (g : Game) (hr : Reachable g) :
    ∀ c ∈ (g.next).space, c ∈ (g.next).cache := by
  intro c hcmem
  rw [next_space_def] at hcmem
  obtain ⟨hcache, hfst⟩ := Finset.mem_filter.mp hcmem
  rw [next_cache_def]
  apply Finset.mem_filter.mpr
  exact ⟨Finset.mem_union_left _ (Finset.mem_filter.mpr ⟨hcache, hfst⟩),
    (reachable_bounds g hr).2 c hcache⟩

/-- The block game is what a successful `init` at density 4/100 with the block
draw sequence produces. -/
theorem gBlock_init :
    (Game.new 10 10).init (4/100) blockCells = Except.ok gBlock := by
  unfold Game.init
  rw [if_neg (by norm_num)]
  rw [show initTarget (Game.new 10 10).size (4/100) = 4 from initTarget_block]
  rfl

/-- The block game is reachable. -/
theorem gBlock_reachable : Reachable gBlock :=
  Reachable.init (Game.new 10 10) gBlock (4/100) blockCells
    (Reachable.new 10 10) (by decide) gBlock_init

/-- Witness for C10: in the block still life, the surviving live cell (0, 0)
is in the cache after `next`. -/
theorem next_space_subset_cache_witness : (0, 0) ∈ gBlock.next.cache :=
  next_space_subset_cache gBlock gBlock_reachable (0, 0) (by decide)

/-- C3 counterexample: in the block still life, the cached live cell (0, 0)
computes a next liveness equal to its current liveness, yet processing it does
insert it into the next active set.  The final conjunct shows that no cached
cell reports a state change, so no neighbor insertion happens during this step
and the membership of (0, 0) in the next cache can only come from the
processing of (0, 0) itself. -/
theorem survivor_reinserted_into_cache :
    (0, 0) ∈ gBlock.cache ∧
      (gBlock.next_cell_state (0, 0)).1 = gBlock.cell_state (0, 0) ∧
      gBlock.cell_state (0, 0) = true ∧
      (0, 0) ∈ gBlock.next.cache ∧
      (∀ c ∈ gBlock.cache, (gBlock.next_cell_state c).2 = none) := by decide

/-- C3 amended: a cached coordinate whose computed next liveness equals its
current liveness contributes none of its neighbors to the next active set; the
coordinate itself, however, is inserted into the next active set whenever its
(unchanged) liveness is true and it is in bounds — an unchanged dead cell
inserts nothing, but an unchanged live survivor is re-inserted. -/
theorem unchanged_cell_neighbors_not_cached (g : Game) (c : Coord)
    (hc : c ∈ g.cache) (h : (g.next_cell_state c).1 = g.cell_state c) :
    (g.next_cell_state c).2 = none ∧
      (g.cell_state c = true → inBounds g.size c → c ∈ (g.next).cache) := by
  refine ⟨next_cell_state_snd_of_unchanged g c h, fun halive hin => ?_⟩
  rw [next_cache_def]
  apply Finset.mem_filter.mpr
  refine ⟨Finset.mem_union_left _ (Finset.mem_filter.mpr ⟨hc, ?_⟩), hin⟩
  rw [h, halive]

/-- Witness for C3 amended at the unchanged live cell (1, 1) of the block. -/
theorem unchanged_cell_neighbors_not_cached_witness :
    (gBlock.next_cell_state (1, 1)).2 = none ∧ (1, 1) ∈ gBlock.next.cache := by
  have h := unchanged_cell_neighbors_not_cached gBlock (1, 1) (by decide) (by decide)
  exact ⟨h.1, h.2 (by decide) (by decide)⟩

/-- The buggy 5 x 5 game is what a successful `init` at density 4/25 with the
`bugDraws` sequence produces. -/
theorem g0bug_init :
    (Game.new 5 5).init (4/25) bugDraws = Except.ok g0bug := by
  unfold Game.init
  rw [if_neg (by norm_num)]
  rw [show initTarget (Game.new 5 5).size (4/25) = 4 from initTarget_bug]
  rfl

/-- The divergent state is reachable: construct, initialize with in-bounds
draws, step once. -/
theorem g1bug_reachable : Reachable g1bug :=
  Reachable.next g0bug
    (Reachable.init (Game.new 5 5) g0bug (4/25) bugDraws
      (Reachable.new 5 5) (by decide) g0bug_init)

/-- C1 fails on the code: `g1bug` is a reachable state (a fresh 5 x 5 grid,
an `init` that places an isolated corner cell and a three-cell cluster, one
step) in which the dead in-bounds cell (1, 1) has exactly three live
neighbors — the brute-force full-grid Life rule births it — yet the
active-set-restricted `next` leaves it dead, because (1, 1) is not in the
cache: `init` cached only the neighbors of placed cells, never the placed
cell itself, so the isolated corner cell died unprocessed and its death never
re-activated (1, 1). -/
theorem next_diverges_from_brute_force :
    Reachable g1bug ∧
      inBounds g1bug.size (1, 1) ∧
      g1bug.next.cell_state (1, 1) = false ∧
      (1, 1) ∈ bruteForceStep g1bug :=
  ⟨g1bug_reachable, by decide, by decide, by decide⟩

/-- The sampling loop stops exactly at the target population whenever the
draws are duplicate-free, hit only dead cells, and are numerous enough: each
consumed draw raises the live count by one, and the loop guard stops it the
moment the target is reached. -/
theorem initLoop_alive (target : ℕ) (ds : List Coord) : ∀ g : Game,
    ds.Nodup → (∀ c ∈ ds, c ∉ g.space) → g.alive ≤ target →
    target ≤ g.alive + ds.length → (initLoop target g ds).alive = target := by
  induction ds with
  | nil =>
      intro g _ _ h1 h2
      simp only [List.length_nil, Nat.add_zero] at h2
      unfold initLoop
      omega
  | cons c ds ih =>
      intro g hnd hfresh h1 h2
      by_cases hlt : g.alive < target
      · rw [initLoop, if_pos hlt]
        have hdead : g.cell_state c = false := by
          simp only [Game.cell_state, decide_eq_false_iff_not]
          exact hfresh c (List.mem_cons_self c ds)
        rw [hdead]
        simp only [Bool.false_eq_true, if_false]
        have hnotmem : c ∉ g.space := hfresh c (List.mem_cons_self c ds)
        have halive2 : ((g.set_cell_state c).insert_cache (neighbors c)).alive =
            g.alive + 1 := by
          unfold Game.alive
          rw [insert_cache_space, set_cell_state_space,
            Finset.card_insert_of_not_mem hnotmem]
        apply ih
        · exact (List.nodup_cons.mp hnd).2
        · intro x hx
          rw [insert_cache_space, set_cell_state_space]
          intro hmem
          rcases Finset.mem_insert.mp hmem with hxc | hxs
          · exact (List.nodup_cons.mp hnd).1 (hxc ▸ hx)
          · exact hfresh x (List.mem_cons_of_mem c hx) hxs
        · omega
        · rw [halive2]
          simp only [List.length_cons] at h2
          omega
      · rw [initLoop, if_neg hlt]
        omega

/-- The covering draw sequence is duplicate-free. -/
theorem enumCoords_nodup (w h : ℕ) : (enumCoords w h).Nodup := by
  unfold enumCoords
  apply List.Nodup.map
  · intro a b hab
    simp only [Prod.mk.injEq, Nat.cast_inj] at hab
    exact Prod.ext hab.1 hab.2
  · exact List.Nodup.product (List.nodup_range w) (List.nodup_range h)

/-- The covering draw sequence has one entry per grid cell. -/
theorem enumCoords_length (w h : ℕ) : (enumCoords w h).length = w * h := by
  unfold enumCoords
  rw [List.length_map, List.length_product, List.length_range, List.length_range]

/-- C9 counterexample: on a 16777217 x 1 grid (area 2^24 + 1) at density 1.0
— squarely inside the claim's range, and 1.0 is exact in `f32` — a successful
`init` (covering draws) ends with an alive count of 16777216, because the
source casts the area to `f32` and 2^24 + 1 rounds down to 2^24 by ties to
even; the claimed `floor(width * height * density)` is 16777217.  So the alive
count is not `floor(width * height * density)`. -/
theorem init_alive_ne_exact_floor :
    ((Game.new 16777217 1).init 1 (enumCoords 16777217 1)).map Game.alive =
        Except.ok 16777216 ∧
      (16777216 : ℕ) ≠ (⌊((16777217 * 1 : ℕ) : ℚ) * 1⌋).toNat := by
  constructor
  · unfold Game.init
    rw [if_neg (by norm_num)]
    simp only [Except.map]
    have ht : initTarget (Game.new 16777217 1).size 1 = 16777216 := initTarget_big
    rw [ht]
    have halive : (initLoop 16777216 (Game.new 16777217 1)
        (enumCoords 16777217 1)).alive = 16777216 := by
      apply initLoop_alive
      · exact enumCoords_nodup 16777217 1
      · intro c _
        simp [Game.new]
      · exact Nat.zero_le _
      · rw [enumCoords_length]
        show (16777216 : ℕ) ≤ 0 + 16777217 * 1
        norm_num
    rw [halive]
  · have : (⌊((16777217 * 1 : ℕ) : ℚ) * 1⌋).toNat = 16777217 := by
      norm_num
      rfl
    omega

/-- C9 amended: for every grid (with the area inside the `usize` range the
source computes in) and every density in the unit interval, an `init` whose
injected draw sequence covers the whole grid succeeds and ends with an alive
count exactly equal to the target population the source computes —
`(width * height) as f32 * density`, truncated — whenever that target does not
exceed the grid area (when it does, the rejection loop can never reach it and
the source loops forever).  At instances where the `f32` arithmetic is exact,
such as 10 x 10 with densities 0.5, 0.0, 1.0, this target coincides with
`floor(width * height * density)`. -/
theorem init_alive_eq_f32_target (w h : ℕ) (d : ℚ) (h0 : 0 ≤ d) (h1 : d ≤ 1)
    (_hrange : w * h < 2 ^ 64) (htar : initTarget (w, h) d ≤ w * h) :
    ((Game.new w h).init d (enumCoords w h)).map Game.alive =
      Except.ok (initTarget (w, h) d) := by
  have hcond : ¬ (0 > d ∨ 1 < d) := by push_neg; exact ⟨h0, h1⟩
  unfold Game.init
  rw [if_neg hcond]
  simp only [Except.map]
  congr 1
  apply initLoop_alive
  · exact enumCoords_nodup w h
  · intro c _
    simp [Game.new]
  · exact Nat.zero_le _
  · rw [enumCoords_length]
    show initTarget (w, h) d ≤ 0 + w * h
    omega

/-- Witness for C9 amended at the 10 x 10, density one-half instance named by
the claim: the live count ends at exactly 50, which is
`floor(10 * 10 * 0.5)`. -/
theorem init_alive_eq_f32_target_witness :
    ((Game.new 10 10).init (1/2) (enumCoords 10 10)).map Game.alive =
        Except.ok 50 ∧
      (50 : ℕ) = (⌊((10 * 10 : ℕ) : ℚ) * (1/2)⌋).toNat := by
  constructor
  · have h := init_alive_eq_f32_target 10 10 (1/2) (by norm_num) (by norm_num)
      (by norm_num) (by rw [initTarget_half]; norm_num)
    rw [initTarget_half] at h
    exact h
  · norm_num
    rfl

end RustLife
